import Mathlib

/-!
# estate-mind-ai — verification of the crawler / ingestion pipeline

Shallow embedding of the Python sources of the `estate-mind-ai` repository:

* `src/agents/crawler.py`   — `CrawlerAgent` (`_parse_json`, `_extract_urls_regex`,
  `_generate_minio_key`, `discover_listings`)
* `src/agents/run_crawler.py` — `save_to_bronze_and_db`
* `src/agents/bronze_storage.py` — `BronzeStorage` (modelled as a set of stored keys
  plus a success oracle for `store_raw_html`)
* `src/listings/models.py`  — the `Listing` entity (fields, `STATUS_CHOICES`)
* `src/listings/serializers.py`, `src/listings/views.py` — serializer selection

Python strings are modelled as Lean `String` (ASCII is all the code paths under
scrutiny touch); machine integers do not occur except inside SHA-256 where 32-bit
words are `Nat` reduced `% 2^32`.  Fallible Python code (an uncaught exception)
is modelled with `Option`/`Except`.
-/

set_option maxRecDepth 4000

namespace EstateMind

/-! ## Python string primitives -/

/-- Python `str.strip()` whitespace set (ASCII): space, `\t`, `\n`, `\r`, `\f`, `\v`. -/
def pyIsSpace (c : Char) : Bool :=
  c = ' ' || c = '\t' || c = '\n' || c = '\r' || c = '\x0c' || c = '\x0b'

/-- Python `s.strip()` — drop leading and trailing whitespace. -/
def pyStrip (s : String) : String :=
  ⟨(s.toList.dropWhile pyIsSpace).reverse.dropWhile pyIsSpace |>.reverse⟩

/-- `needle` occurs as a contiguous substring of `hay` — Python `needle in hay`. -/
def pyIn (needle hay : String) : Bool :=
  hay.toList.tails.any fun t => needle.toList.isPrefixOf t

/-- Left-to-right, non-overlapping split on a non-empty separator; the fuel is
an upper bound on the scanned length and never runs out at the call sites. -/
def splitGo (sep : List Char) : Nat → List Char → List Char → List (List Char)
  | 0, acc, _ => [acc.reverse]
  | fuel + 1, acc, cs =>
    match cs with
    | [] => [acc.reverse]
    | c :: rest =>
      if sep.isPrefixOf cs then
        acc.reverse :: splitGo sep fuel [] (cs.drop sep.length)
      else
        splitGo sep fuel (c :: acc) rest

/-- Python `s.split(sep)` for a non-empty separator. -/
def pySplit (s sep : String) : List String :=
  (splitGo sep.toList (s.toList.length + 1) [] s.toList).map String.mk

/-- Left-to-right, non-overlapping replacement of `pat` by `rep`. -/
def replaceGo (pat rep : List Char) : Nat → List Char → List Char
  | 0, cs => cs
  | fuel + 1, cs =>
    match cs with
    | [] => []
    | c :: rest =>
      if pat.isPrefixOf cs then rep ++ replaceGo pat rep fuel (cs.drop pat.length)
      else c :: replaceGo pat rep fuel rest

/-- Python `s.replace(pat, rep)` for a non-empty `pat`. -/
def pyReplace (s pat rep : String) : String :=
  ⟨replaceGo pat.toList rep.toList (s.toList.length + 1) s.toList⟩

/-- Python `lst[-1]` on the (always non-empty) result of `str.split`. -/
def pyLast (xs : List String) : String := xs.getLastD ""

/-- Python `lst[i]` for `i ≥ 0`; callers below only use it where the source has
already guaranteed the index exists. -/
def pyGet (xs : List String) (i : Nat) : String := xs.getD i ""

/-- Python `s.index(sub)` for a single-character `sub`: index of the first
occurrence, or `none` (Python raises `ValueError`) when absent. -/
def pyIndexChar (s : String) (c : Char) : Option Nat :=
  s.toList.findIdx? (· = c)

/-- Python `s.rindex(sub)` for a single-character `sub`: index of the last
occurrence, or `none` (Python raises `ValueError`) when absent. -/
def pyRindexChar (s : String) (c : Char) : Option Nat :=
  (s.toList.reverse.findIdx? (· = c)).map fun i => s.length - 1 - i

/-- Python slice `s[a:b]` (with `0 ≤ a ≤ b` as used in the source). -/
def pySlice (s : String) (a b : Nat) : String :=
  ⟨(s.toList.take b).drop a⟩

/-- Python truncation `s[:n]`. -/
def pyTruncate (s : String) (n : Nat) : String :=
  ⟨s.toList.take n⟩

/-- Python `s.startswith p`. -/
def pyStartswith (s p : String) : Bool := p.toList.isPrefixOf s.toList

/-! ## JSON values and a model of Python `json.loads`

`crawler.py` recovers structured data from LLM text with `json.loads`.  We model
JSON values with numbers kept as their validated lexeme (no claim compares
numeric values), and objects as ordered key/value lists where a duplicate key
overwrites in place, as a Python `dict` built by the stdlib decoder does. -/

inductive Json where
  | null
  | bool (b : Bool)
  | num (lexeme : String)
  | str (s : String)
  | arr (elems : List Json)
  | obj (fields : List (String × Json))

/-- JSON whitespace accepted by the stdlib decoder: space, tab, LF, CR. -/
def jsonWs (c : Char) : Bool := c = ' ' || c = '\t' || c = '\n' || c = '\r'

def skipWs (cs : List Char) : List Char := cs.dropWhile jsonWs

def hexDigit (c : Char) : Option Nat :=
  if '0' ≤ c ∧ c ≤ '9' then some (c.toNat - '0'.toNat)
  else if 'a' ≤ c ∧ c ≤ 'f' then some (c.toNat - 'a'.toNat + 10)
  else if 'A' ≤ c ∧ c ≤ 'F' then some (c.toNat - 'A'.toNat + 10)
  else none

/-- Parse a JSON string body (the opening quote already consumed); returns the
decoded content and the remaining input.  Lone `\uXXXX` surrogates are rejected
(the claims under verification never exercise surrogate pairs). -/
def jsonParseString (fuel : Nat) (cs : List Char) : Option (String × List Char) :=
  match fuel, cs with
  | 0, _ => none
  | _, [] => none
  | fuel + 1, c :: rest =>
    if c = '"' then some ("", rest)
    else if c = '\\' then
      match rest with
      | [] => none
      | e :: rest2 =>
        let esc : Option (Char × List Char) :=
          if e = '"' then some ('"', rest2)
          else if e = '\\' then some ('\\', rest2)
          else if e = '/' then some ('/', rest2)
          else if e = 'b' then some ('\x08', rest2)
          else if e = 'f' then some ('\x0c', rest2)
          else if e = 'n' then some ('\n', rest2)
          else if e = 'r' then some ('\r', rest2)
          else if e = 't' then some ('\t', rest2)
          else if e = 'u' then
            match rest2 with
            | a :: b :: c2 :: d :: rest3 =>
              match hexDigit a, hexDigit b, hexDigit c2, hexDigit d with
              | some ha, some hb, some hc, some hd =>
                let n := ((ha * 16 + hb) * 16 + hc) * 16 + hd
                if n < 0xd800 ∨ 0xdfff < n then some (Char.ofNat n, rest3)
                else none
              | _, _, _, _ => none
            | _ => none
          else none
        match esc with
        | some (ch, rest3) =>
          (jsonParseString fuel rest3).map fun p => (⟨ch :: p.1.toList⟩, p.2)
        | none => none
    else if c.toNat < 0x20 then none
    else (jsonParseString fuel rest).map fun p => (⟨c :: p.1.toList⟩, p.2)

/-- Parse a JSON number lexeme: `-? (0 | [1-9][0-9]*) (. [0-9]+)? ([eE][+-]?[0-9]+)?`. -/
def jsonParseNumber (cs : List Char) : Option (String × List Char) :=
  let (sign, cs1) := match cs with
    | '-' :: r => (['-'], r)
    | _ => (([] : List Char), cs)
  let ipart : Option (List Char × List Char) := match cs1 with
    | '0' :: r => some (['0'], r)
    | c :: _ =>
      if c.isDigit then
        some (cs1.takeWhile Char.isDigit, cs1.dropWhile Char.isDigit)
      else none
    | [] => none
  match ipart with
  | none => none
  | some (ds, cs2) =>
    -- optional fraction group: a dot not followed by a digit is simply not
    -- part of the number (the scanner's regex group fails to match)
    let (fpart, cs3) : List Char × List Char := match cs2 with
      | '.' :: r =>
        if (r.takeWhile Char.isDigit).isEmpty then ([], cs2)
        else ('.' :: r.takeWhile Char.isDigit, r.dropWhile Char.isDigit)
      | _ => ([], cs2)
    let (epart, cs4) : List Char × List Char := match cs3 with
      | e :: r =>
        if e = 'e' ∨ e = 'E' then
          let (s2, r2) : List Char × List Char := match r with
            | '+' :: r3 => (['+'], r3)
            | '-' :: r3 => (['-'], r3)
            | _ => ([], r)
          if (r2.takeWhile Char.isDigit).isEmpty then ([], cs3)
          else (e :: (s2 ++ r2.takeWhile Char.isDigit), r2.dropWhile Char.isDigit)
        else ([], cs3)
      | [] => ([], cs3)
    some (⟨sign ++ ds ++ fpart ++ epart⟩, cs4)

/-- Python `dict` insertion: an existing key keeps its position and its value is
overwritten; a new key is appended. -/
def objInsert (fields : List (String × Json)) (k : String) (v : Json) :
    List (String × Json) :=
  if fields.any (·.1 = k) then
    fields.map fun p => if p.1 = k then (k, v) else p
  else fields ++ [(k, v)]

mutual

def jsonParseValue (fuel : Nat) (cs : List Char) : Option (Json × List Char) :=
  match fuel with
  | 0 => none
  | fuel + 1 =>
    match skipWs cs with
    | [] => none
    | '\x7b' :: rest =>
      match skipWs rest with
      | '\x7d' :: rest2 => some (.obj [], rest2)
      | rest2 => jsonParseMembers fuel rest2 []
    | '[' :: rest =>
      match skipWs rest with
      | ']' :: rest2 => some (.arr [], rest2)
      | rest2 => jsonParseElems fuel rest2 []
    | '"' :: rest => (jsonParseString (rest.length + 1) rest).map fun p => (.str p.1, p.2)
    | 't' :: 'r' :: 'u' :: 'e' :: rest => some (.bool true, rest)
    | 'f' :: 'a' :: 'l' :: 's' :: 'e' :: rest => some (.bool false, rest)
    | 'n' :: 'u' :: 'l' :: 'l' :: rest => some (.null, rest)
    | rest => (jsonParseNumber rest).map fun p => (.num p.1, p.2)

def jsonParseMembers (fuel : Nat) (cs : List Char) (acc : List (String × Json)) :
    Option (Json × List Char) :=
  match fuel with
  | 0 => none
  | fuel + 1 =>
    match skipWs cs with
    | '"' :: rest =>
      match jsonParseString (rest.length + 1) rest with
      | none => none
      | some (k, rest1) =>
        match skipWs rest1 with
        | ':' :: rest2 =>
          match jsonParseValue fuel rest2 with
          | none => none
          | some (v, rest3) =>
            match skipWs rest3 with
            | ',' :: rest4 => jsonParseMembers fuel rest4 (objInsert acc k v)
            | '\x7d' :: rest4 => some (.obj (objInsert acc k v), rest4)
            | _ => none
        | _ => none
    | _ => none

def jsonParseElems (fuel : Nat) (cs : List Char) (acc : List Json) :
    Option (Json × List Char) :=
  match fuel with
  | 0 => none
  | fuel + 1 =>
    match jsonParseValue fuel cs with
    | none => none
    | some (v, rest) =>
      match skipWs rest with
      | ',' :: rest2 => jsonParseElems fuel rest2 (acc ++ [v])
      | ']' :: rest2 => some (.arr (acc ++ [v]), rest2)
      | _ => none

end

/-- Model of Python `json.loads`: parse one value, allow surrounding whitespace,
require the whole input to be consumed; `none` models `json.JSONDecodeError`. -/
def jsonLoads (s : String) : Option Json :=
  match jsonParseValue (s.length + 1) s.toList with
  | some (v, rest) => if (skipWs rest).isEmpty then some v else none
  | none => none

/-! ## `CrawlerAgent._parse_json` (crawler.py, lines 75–95)

The source catches only `json.JSONDecodeError`.  The `text.rindex("}")` call in
the first-brace/last-brace branch raises an uncaught `ValueError` when the text
contains `\x7b` but no `\x7d`; `Except.error ()` models that exception escaping
to the caller. -/

def parse_json (text : String) : Except Unit Json :=
  let text := pyStrip text
  let text :=
    if pyIn "<think>" text then pyStrip (pyLast (pySplit text "</think>")) else text
  match jsonLoads text with
  | some v => .ok v
  | none =>
    let text2 : Except Unit String :=
      if pyIn "```json" text then
        .ok (pyStrip (pyGet (pySplit (pyGet (pySplit text "```json") 1) "```") 0))
      else if pyIn "```" text then
        .ok (pyStrip (pyGet (pySplit (pyGet (pySplit text "```") 1) "```") 0))
      else if pyIn "\x7b" text then
        match pyRindexChar text '\x7d' with
        | some iend => .ok (pySlice text ((pyIndexChar text '\x7b').getD 0) (iend + 1))
        | none => .error ()
      else .ok text
    match text2 with
    | .error e => .error e
    | .ok text =>
      match jsonLoads text with
      | some v => .ok v
      | none => .ok (.obj [])

/-! ## `CrawlerAgent._extract_urls_regex` (crawler.py, lines 97–143)

The three site regexes are concrete enough to implement as direct scanners with
Python `re.findall` semantics: leftmost scan, greedy character-class runs,
non-overlapping continuation after each match, `re.IGNORECASE` on the literals.
The only pattern needing backtracking is Mubawab's `[^"\s<>']*\d+\.htm`; since
`\d+` is followed by a non-digit literal it is deterministic once the split
point of the starred class is fixed, and the engine tries split points longest
first. -/

/-- The regex character class `[^"\s<>']` (ASCII `\s`). -/
def urlChar (c : Char) : Bool :=
  ¬ (c = '"' || pyIsSpace c || c = '<' || c = '>' || c = '\x27')

/-- Case-insensitive literal match at the head; returns the consumed original
characters and the remainder. -/
def matchLitCI : List Char → List Char → Option (List Char × List Char)
  | [], cs => some ([], cs)
  | _ :: _, [] => none
  | l :: ls, c :: cs =>
    if c.toLower = l.toLower then
      (matchLitCI ls cs).map fun p => (c :: p.1, p.2)
    else none

/-- Optional case-insensitive literal (`(?:lit)?`): greedy, and for the patterns
below the literal's first character can never start the following literal, so no
backtracking is needed. -/
def matchOptCI (lit cs : List Char) : List Char × List Char :=
  match matchLitCI lit cs with
  | some p => p
  | none => ([], cs)

/-- `https?://(?:www\.)?<host>` at the head of the input. -/
def matchSchemeHost (host : String) (cs : List Char) : Option (List Char × List Char) := do
  let (a, cs1) ← matchLitCI "http".toList cs
  let (b, cs2) := matchOptCI ['s'] cs1
  let (c, cs3) ← matchLitCI "://".toList cs2
  let (d, cs4) := matchOptCI "www.".toList cs3
  let (e, cs5) ← matchLitCI host.toList cs4
  some (a ++ b ++ c ++ d ++ e, cs5)

/-- `[^"\s<>']+` — greedy, at least one character. -/
def matchUrlTail (pre cs : List Char) : Option (List Char × List Char) :=
  let body := cs.takeWhile urlChar
  if body.isEmpty then none else some (pre ++ body, cs.dropWhile urlChar)

/-- Tayara pattern `https?://(?:www\.)?tayara\.tn/item/[^"\s<>']+` at the head. -/
def tayaraAt (cs : List Char) : Option (List Char × List Char) :=
  (matchSchemeHost "tayara.tn/item/" cs).bind fun p => matchUrlTail p.1 p.2

/-- Tunisie-Annonce pattern `https?://(?:www\.)?tunisie-annonce\.com/AnnsDetail[^"\s<>']+`. -/
def taAt (cs : List Char) : Option (List Char × List Char) :=
  (matchSchemeHost "tunisie-annonce.com/AnnsDetail" cs).bind fun p => matchUrlTail p.1 p.2

/-- The `[^"\s<>']*\d+\.htm` tail of the Mubawab pattern: the starred class is
tried longest-first; `\d+` then `.htm` are forced.  Returns the number of
characters of `run` the tail consumes. -/
def mubTailLen (run : List Char) : Option Nat :=
  ((List.range (run.length + 1)).reverse).findSome? fun k =>
    let suffix := run.drop k
    let ds := suffix.takeWhile Char.isDigit
    if ds.isEmpty then none
    else if ".htm".toList.isPrefixOf (suffix.drop ds.length) then
      some (k + ds.length + 4)
    else none

/-- Mubawab pattern `https?://(?:www\.)?mubawab\.tn/fr/[^"\s<>']*\d+\.htm` at the
head.  All characters of `\d+\.htm` lie in the class `[^"\s<>']`, so the whole
tail match stays inside the maximal class run. -/
def mubawabAt (cs : List Char) : Option (List Char × List Char) :=
  (matchSchemeHost "mubawab.tn/fr/" cs).bind fun p =>
    let run := p.2.takeWhile urlChar
    (mubTailLen run).map fun len => (p.1 ++ p.2.take len, p.2.drop len)

/-- `re.findall` driver: try the pattern at each position left to right,
resuming after the end of each (non-empty) match. -/
def findallAux (m : List Char → Option (List Char × List Char)) :
    Nat → List Char → List String
  | 0, _ => []
  | _, [] => []
  | fuel + 1, cs =>
    match m cs with
    | some (txt, rest) => String.mk txt :: findallAux m fuel rest
    | none => findallAux m fuel cs.tail

def findall (m : List Char → Option (List Char × List Char)) (s : String) : List String :=
  findallAux m s.toList.length s.toList

/-- The link-list acceptance condition of `_extract_urls_regex` (one `if/elif`
chain, each arm adding the link to the same set). -/
def linkCond (link : String) : Bool :=
  (pyIn "/item/" link && pyIn "tayara" link)
  || (pyIn "mubawab" link && pyIn ".htm" link)
  || (pyIn "tunisie-annonce" link && pyIn "AnnDetail" link)

/-- The intermediate `listing_urls` set: regex matches over the HTML for the
three site patterns, plus the accepted extracted links. -/
def listing_urls_pre (html : String) (links : List String) : Finset String :=
  (findall tayaraAt html ++ findall mubawabAt html ++ findall taAt html
    ++ links.filter linkCond).toFinset

/-- The final normalization (`# Ensure full URLs` loop): absolute URLs keep
everything before the first `?`; root-relative URLs get the base prefixed; any
other member of the set is dropped. -/
def cleanUrl (base_url url : String) : Option String :=
  if pyStartswith url "http" then some (pyGet (pySplit url "?") 0)
  else if pyStartswith url "/" then some (base_url ++ url)
  else none

/-- `_extract_urls_regex`: the source returns `list(clean_urls)` whose order is
the arbitrary Python set order, so the honest model of the result is the set. -/
def extract_urls_regex (html : String) (links : List String) (base_url : String) :
    Finset String :=
  (listing_urls_pre html links).biUnion fun u => (cleanUrl base_url u).toFinset

/-! ## `CrawlerAgent.discover_listings` (crawler.py, lines 173–217)

Page fetching (`_crawl_page`) and the LLM fallback (`_discover_with_llm`) are
network I/O; a `PageData` records, for one pagination URL, what the fetch would
return and what the LLM fallback would yield on that page's markdown.  The loop
body and the stop condition are translated from the source.  The second
component of the result counts loop iterations entered, i.e. pages fetched. -/

structure PageData where
  success : Bool
  html : String
  links : List String
  llmUrls : List String

/-- `base_url = "/".join(search_url.split("/")[:3])`. -/
def baseOf (search_url : String) : String :=
  String.intercalate "/" ((pySplit search_url "/").take 3)

def discoverGo (base_url : String) : List PageData → Finset String → Finset String × Nat
  | [], acc => (acc, 0)
  | p :: rest, acc =>
    if p.success then
      let regex_urls := extract_urls_regex p.html p.links base_url
      let acc1 := acc ∪ regex_urls
      -- LLM fallback only when regex found nothing, and the same emptiness
      -- test then stops pagination, even though the fallback may have found URLs
      if regex_urls = ∅ then
        (acc1 ∪ p.llmUrls.toFinset, 1)
      else
        let r := discoverGo base_url rest acc1
        (r.1, r.2 + 1)
    else
      -- failed fetch: log and continue with the next page
      let r := discoverGo base_url rest acc
      (r.1, r.2 + 1)

/-- `discover_listings`, with the per-page crawl/LLM environment supplied as
`pages` (one entry per pagination URL, in order). -/
def discover_listings (pages : List PageData) (base_url : String) : Finset String × Nat :=
  discoverGo base_url pages ∅

/-! ## SHA-256 and `CrawlerAgent._generate_minio_key` (crawler.py, lines 145–149)

`hashlib.sha256(url.encode()).hexdigest()[:16]` — SHA-256 (FIPS 180-4) over the
UTF-8 bytes of the URL.  32-bit words are `Nat` values kept below `2^32`. -/

def w32 (n : Nat) : Nat := n % 2 ^ 32

def rotr (x n : Nat) : Nat := w32 ((x >>> n) ||| (x <<< (32 - n)))

def ch32 (x y z : Nat) : Nat := (x &&& y) ^^^ ((x ^^^ 0xffffffff) &&& z)

def maj32 (x y z : Nat) : Nat := (x &&& y) ^^^ (x &&& z) ^^^ (y &&& z)

def bigSigma0 (x : Nat) : Nat := rotr x 2 ^^^ rotr x 13 ^^^ rotr x 22

def bigSigma1 (x : Nat) : Nat := rotr x 6 ^^^ rotr x 11 ^^^ rotr x 25

def smallSigma0 (x : Nat) : Nat := rotr x 7 ^^^ rotr x 18 ^^^ (x >>> 3)

def smallSigma1 (x : Nat) : Nat := rotr x 17 ^^^ rotr x 19 ^^^ (x >>> 10)

def sha256K : List Nat :=
  [1116352408, 1899447441, 3049323471, 3921009573,
   961987163, 1508970993, 2453635748, 2870763221,
   3624381080, 310598401, 607225278, 1426881987,
   1925078388, 2162078206, 2614888103, 3248222580,
   3835390401, 4022224774, 264347078, 604807628,
   770255983, 1249150122, 1555081692, 1996064986,
   2554220882, 2821834349, 2952996808, 3210313671,
   3336571891, 3584528711, 113926993, 338241895,
   666307205, 773529912, 1294757372, 1396182291,
   1695183700, 1986661051, 2177026350, 2456956037,
   2730485921, 2820302411, 3259730800, 3345764771,
   3516065817, 3600352804, 4094571909, 275423344,
   430227734, 506948616, 659060556, 883997877,
   958139571, 1322822218, 1537002063, 1747873779,
   1955562222, 2024104815, 2227730452, 2361852424,
   2428436474, 2756734187, 3204031479, 3329325298]

def sha256H0 : List Nat :=
  [1779033703, 3144134277, 1013904242, 2773480762,
   1359893119, 2600822924, 528734635, 1541459225]

/-- Extend a 16-word block to the 64-word message schedule. -/
def extendSchedule : Nat → List Nat → List Nat
  | 0, ws => ws
  | n + 1, ws =>
    let t := ws.length
    let w := w32 (smallSigma1 (ws.getD (t - 2) 0) + ws.getD (t - 7) 0
      + smallSigma0 (ws.getD (t - 15) 0) + ws.getD (t - 16) 0)
    extendSchedule n (ws ++ [w])

/-- One round of the SHA-256 compression function on the working variables
`[a, b, c, d, e, f, g, h]`. -/
def sha256Round (st : List Nat) (wk : Nat × Nat) : List Nat :=
  match st with
  | [a, b, c, d, e, f, g, h] =>
    let t1 := w32 (h + bigSigma1 e + ch32 e f g + wk.2 + wk.1)
    let t2 := w32 (bigSigma0 a + maj32 a b c)
    [w32 (t1 + t2), a, b, c, w32 (d + t1), e, f, g]
  | other => other

/-- Process one 512-bit block (given as 16 big-endian 32-bit words). -/
def sha256Block (h : List Nat) (block : List Nat) : List Nat :=
  let ws := extendSchedule 48 block
  let st := (ws.zip sha256K).foldl sha256Round h
  (h.zip st).map fun p => w32 (p.1 + p.2)

/-- Big-endian 4-byte groups → 32-bit words. -/
def bytesToWords : List Nat → List Nat
  | b0 :: b1 :: b2 :: b3 :: rest =>
    (((b0 * 256 + b1) * 256 + b2) * 256 + b3) :: bytesToWords rest
  | _ => []

/-- SHA-256 padding: `0x80`, zeros to 56 mod 64, then the 64-bit big-endian bit
length. -/
def sha256Pad (msg : List Nat) : List Nat :=
  let l := msg.length
  let k := (64 + 56 - (l + 1) % 64) % 64
  let bitLen := l * 8
  msg ++ [0x80] ++ List.replicate k 0
    ++ (List.range 8).map fun i => bitLen / 256 ^ (7 - i) % 256

def sha256Chunks (fuel : Nat) (h : List Nat) (ws : List Nat) : List Nat :=
  match fuel with
  | 0 => h
  | fuel + 1 =>
    match ws with
    | [] => h
    | _ => sha256Chunks fuel (sha256Block h (ws.take 16)) (ws.drop 16)

def wordToBytes (w : Nat) : List Nat :=
  [w / 16777216 % 256, w / 65536 % 256, w / 256 % 256, w % 256]

/-- SHA-256 digest (32 bytes) of a byte sequence. -/
def sha256 (msg : List Nat) : List Nat :=
  let ws := bytesToWords (sha256Pad msg)
  ((sha256Chunks (ws.length / 16 + 1) sha256H0 ws).map wordToBytes).flatten

def hexChar (n : Nat) : Char :=
  if n < 10 then Char.ofNat ('0'.toNat + n) else Char.ofNat ('a'.toNat + n - 10)

/-- Lowercase hex rendering of a byte sequence (`hashlib`'s `hexdigest`). -/
def hexdigest (bytes : List Nat) : String :=
  ⟨(bytes.map fun b => [hexChar (b / 16), hexChar (b % 16)]).flatten⟩

/-- UTF-8 encoding of one character (`str.encode()`). -/
def utf8Char (c : Char) : List Nat :=
  let n := c.toNat
  if n < 0x80 then [n]
  else if n < 0x800 then [0xc0 + n / 64, 0x80 + n % 64]
  else if n < 0x10000 then [0xe0 + n / 4096, 0x80 + n / 64 % 64, 0x80 + n % 64]
  else [0xf0 + n / 262144, 0x80 + n / 4096 % 64, 0x80 + n / 64 % 64, 0x80 + n % 64]

def utf8Bytes (s : String) : List Nat := (s.toList.map utf8Char).flatten

/-- A UTC calendar date, the part of `datetime.now(timezone.utc)` that
`strftime("%Y/%m/%d")` consumes. -/
structure UtcDate where
  year : Nat
  month : Nat
  day : Nat

/-- `%m` / `%d` zero-pad to two digits. -/
def pad2 (n : Nat) : String := if n < 10 then "0" ++ toString n else toString n

/-- `strftime("%Y/%m/%d")` (`%Y` is the unpadded year number; four digits for
any date this system can observe). -/
def strftimeYmd (d : UtcDate) : String :=
  toString d.year ++ "/" ++ pad2 d.month ++ "/" ++ pad2 d.day

/-- `_generate_minio_key`, with the write-time UTC date passed explicitly. -/
def generate_minio_key (now : UtcDate) (url : String) : String :=
  strftimeYmd now ++ "/" ++ pyTruncate (hexdigest (sha256 (utf8Bytes url))) 16 ++ ".html"

/-- The archive-key format in the spec's words (§4.1/§8): the current UTC date
as `YYYY/MM/DD`, then `/`, then the first 16 hex characters of the SHA-256
digest of the UTF-8-encoded URL, then `.html`. -/
def specArchiveKey (now : UtcDate) (url : String) : String :=
  toString now.year ++ "/" ++ pad2 now.month ++ "/" ++ pad2 now.day ++ "/"
    ++ pyTruncate (hexdigest (sha256 (utf8Bytes url))) 16 ++ ".html"

/-! ## The `Listing` entity (listings/models.py) -/

/-- `Listing.STATUS_CHOICES` (models.py, lines 61–65). -/
def listing_STATUS_CHOICES : List (String × String) :=
  [("bronze", "Bronze — Raw scraped"),
   ("silver", "Silver — Extracted & validated"),
   ("gold", "Gold — Enriched & geocoded")]

/-- The concrete fields of the `Listing` model, auto primary key first then
declaration order — the field set a `ModelSerializer` with
`fields = '__all__'` serializes. -/
def listing_fields : List String :=
  ["id", "source", "source_url", "source_id", "title", "description",
   "property_type", "transaction_type", "price", "currency", "area_m2",
   "rooms", "bedrooms", "bathrooms", "floor", "governorate", "delegation",
   "city", "address", "latitude", "longitude", "features", "images", "status",
   "scraped_at", "updated_at", "published_at", "raw_html_key", "raw_extracted"]

/-- `ListingSummarySerializer.Meta.fields` (serializers.py, lines 15–19). -/
def listing_summary_fields : List String :=
  ["id", "title", "source", "source_url", "price", "rooms", "area_m2",
   "governorate", "status", "scraped_at"]

inductive SerializerKind where
  | full
  | summary
deriving DecidableEq

/-- The field set each serializer emits: `ListingSerializer` has
`fields = '__all__'`, `ListingSummarySerializer` the explicit list. -/
def serializer_fields : SerializerKind → List String
  | .full => listing_fields
  | .summary => listing_summary_fields

/-- The actions of a DRF `ModelViewSet`. -/
inductive ViewAction where
  | list
  | retrieve
  | create
  | update
  | partial_update
  | destroy
deriving DecidableEq

/-- `ListingViewSet.get_serializer_class` (views.py, lines 13–16). -/
def get_serializer_class (action : ViewAction) : SerializerKind :=
  if action = .list then .summary else .full

/-! ## `save_to_bronze_and_db` (run_crawler.py, lines 22–60)

The MinIO archive is the set of stored object keys; `store_raw_html` returning
`False` on an `S3Error` (bronze_storage.py, lines 54–82) is modelled by the
success oracle `storeOk` — on failure the key is not stored, but the source
increments `bronze_saved` regardless of the returned flag.  The Django table is
the list of rows in insertion order.  `url.split("/")[-2]` raises `IndexError`
when the URL has no `/`, hence the `Option` result. -/

structure CrawlRecord where
  url : String
  source : String
  raw_html_key : String
  raw_html : String
  markdown : String

/-- The columns of a `Listing` row that `save_to_bronze_and_db` writes; all
other columns take their model defaults and no claim reads them. -/
structure ListingRow where
  title : String
  source : String
  source_url : String
  raw_html_key : String
  description : String
  status : String
deriving DecidableEq

structure StoreState where
  archive : Finset String
  listings : List ListingRow

structure IngestStats where
  bronze_saved : Nat
  db_created : Nat
  db_skipped : Nat
deriving DecidableEq

/-- Python `str.title()` (ASCII): the first alphabetic character of each run of
alphabetic characters is uppercased, the rest lowercased. -/
def pyTitleGo : Bool → List Char → List Char
  | _, [] => []
  | prevCased, c :: cs =>
    if c.isAlpha then
      (if prevCased then c.toLower else c.toUpper) :: pyTitleGo true cs
    else
      c :: pyTitleGo false cs

def pyTitle (s : String) : String := ⟨pyTitleGo false s.toList⟩

/-- Python `lst[-2]`: raises `IndexError` (`none`) on fewer than two elements. -/
def pyIdxNeg2 (xs : List String) : Option String :=
  match xs with
  | _ :: _ :: _ => some (xs.getD (xs.length - 2) "")
  | _ => none

/-- The row `save_to_bronze_and_db` inserts for a fresh URL, given the
next-to-last path segment of the URL. -/
def ingestedRow (r : CrawlRecord) (seg : String) : ListingRow :=
  { title := pyTruncate (pyTitle (pyReplace seg "-" " ")) 200
    source := r.source
    source_url := r.url
    raw_html_key := r.raw_html_key
    description := pyTruncate r.markdown 5000
    status := "raw" }

/-- `=== BRONZE: Store raw HTML in MinIO ===` — when the record has both a key
and HTML and the key is absent from the archive, call `store_raw_html` (the key
lands in the archive only when the store succeeds) and increment `bronze_saved`
without looking at the returned flag. -/
def bronze_phase (storeOk : String → Bool) (st : StoreState × IngestStats)
    (r : CrawlRecord) : StoreState × IngestStats :=
  if r.raw_html_key ≠ "" ∧ r.raw_html ≠ "" then
    if r.raw_html_key ∉ st.1.archive then
      ({ st.1 with archive :=
           if storeOk r.raw_html_key then insert r.raw_html_key st.1.archive
           else st.1.archive },
       { st.2 with bronze_saved := st.2.bronze_saved + 1 })
    else st
  else st

/-- `=== SILVER: Save listing to Django DB ===` — skip (counting) when a row
with this `source_url` exists, otherwise derive the fallback title from
`url.split("/")[-2]` and insert. -/
def silver_phase (st : StoreState × IngestStats) (r : CrawlRecord) :
    Option (StoreState × IngestStats) :=
  if st.1.listings.any fun row => row.source_url == r.url then
    some (st.1, { st.2 with db_skipped := st.2.db_skipped + 1 })
  else
    (pyIdxNeg2 (pySplit r.url "/")).map fun seg =>
      ({ st.1 with listings := st.1.listings ++ [ingestedRow r seg] },
       { st.2 with db_created := st.2.db_created + 1 })

/-- One iteration of the `for r in results` loop. -/
def save_step (storeOk : String → Bool) (st : StoreState × IngestStats)
    (r : CrawlRecord) : Option (StoreState × IngestStats) :=
  silver_phase (bronze_phase storeOk st r) r

/-- `save_to_bronze_and_db`: stats start at zero and the records are processed
in order; `none` models the `IndexError` propagating out of the function. -/
def save_to_bronze_and_db (storeOk : String → Bool) (results : List CrawlRecord)
    (store : StoreState) : Option (StoreState × IngestStats) :=
  results.foldlM (save_step storeOk) (store, ⟨0, 0, 0⟩)

/-! # Theorems -/

/-! ## Structural lemmas about the ingestion loop, shared by several claims -/

/-- The bronze phase never touches the listings table or the DB counters. -/
theorem bronze_phase_frame (ok : String → Bool) (st : StoreState × IngestStats)
    (r : CrawlRecord) :
    (bronze_phase ok st r).1.listings = st.1.listings ∧
    (bronze_phase ok st r).2.db_created = st.2.db_created ∧
    (bronze_phase ok st r).2.db_skipped = st.2.db_skipped := by
  unfold bronze_phase
  split_ifs <;> simp

/-- The silver phase never touches the archive or the bronze counter. -/
theorem silver_phase_frame (st s' : StoreState × IngestStats) (r : CrawlRecord)
    (h : silver_phase st r = some s') :
    s'.1.archive = st.1.archive ∧ s'.2.bronze_saved = st.2.bronze_saved := by
  unfold silver_phase at h
  split at h
  · cases h
    exact ⟨rfl, rfl⟩
  · cases hseg : pyIdxNeg2 (pySplit r.url "/") with
    | none => rw [hseg] at h; cases h
    | some seg =>
      rw [hseg] at h
      cases h
      exact ⟨rfl, rfl⟩

/-- Case analysis of one loop iteration: a duplicate URL leaves the table
unchanged and bumps `db_skipped`; a fresh URL appends exactly the row built
from the record and bumps `db_created`. -/
theorem save_step_cases (ok : String → Bool) (st s' : StoreState × IngestStats)
    (r : CrawlRecord) (h : save_step ok st r = some s') :
    ((st.1.listings.any fun row => row.source_url == r.url) = true ∧
      s'.1.listings = st.1.listings ∧
      s'.2.db_skipped = st.2.db_skipped + 1 ∧
      s'.2.db_created = st.2.db_created) ∨
    ((st.1.listings.any fun row => row.source_url == r.url) = false ∧
      ∃ seg, pyIdxNeg2 (pySplit r.url "/") = some seg ∧
        s'.1.listings = st.1.listings ++ [ingestedRow r seg] ∧
        s'.2.db_created = st.2.db_created + 1 ∧
        s'.2.db_skipped = st.2.db_skipped) := by
  unfold save_step silver_phase at h
  have hfr := bronze_phase_frame ok st r
  cases hany : (st.1.listings.any fun row => row.source_url == r.url) with
  | true =>
    rw [if_pos (by rw [hfr.1]; exact hany)] at h
    cases h
    exact Or.inl ⟨rfl, hfr.1, by simp [hfr.2.2], by simp [hfr.2.1]⟩
  | false =>
    rw [if_neg (by rw [hfr.1]; simp [hany])] at h
    cases hseg : pyIdxNeg2 (pySplit r.url "/") with
    | none => rw [hseg] at h; cases h
    | some seg =>
      rw [hseg] at h
      cases h
      exact Or.inr ⟨rfl, seg, rfl, by rw [hfr.1], by simp [hfr.2.1],
        by simp [hfr.2.2]⟩

/-- **C3.** The response-to-JSON recovery function `_parse_json` satisfies the
four spec test vectors: a `<think>…</think>` prefix before the JSON, the JSON
inside a ```json fenced block, and the JSON surrounded by noise text all
recover the mapping `{"listing_urls": ["x"]}`; `"not json at all"` recovers the
empty mapping. -/
theorem parse_json_recovery_vectors :
    parse_json "<think>reasoning</think>\x7b\"listing_urls\":[\"x\"]\x7d"
      = .ok (.obj [("listing_urls", .arr [.str "x"])]) ∧
    parse_json "```json\n\x7b\"listing_urls\":[\"x\"]\x7d\n```"
      = .ok (.obj [("listing_urls", .arr [.str "x"])]) ∧
    parse_json "noise \x7b\"listing_urls\":[\"x\"]\x7d noise"
      = .ok (.obj [("listing_urls", .arr [.str "x"])]) ∧
    parse_json "not json at all" = .ok (.obj []) :=
  ⟨rfl, rfl, rfl, rfl⟩

/-- **C4.** The claim says `_parse_json` is total and never raises.  It is not:
on the input `"\x7b"` the direct parse fails, there is no code fence, the text
contains `\x7b`, and `text.rindex("\x7d")` raises a `ValueError` that the
function does not catch (it only catches `json.JSONDecodeError`), so the
exception propagates to the caller. -/
theorem parse_json_lone_brace_raises :
    parse_json "\x7b" = .error () :=
  rfl

/-- **C5.** The generated archive object key equals the current UTC date
formatted `YYYY/MM/DD`, then `/`, then the first 16 hex characters of the
SHA-256 digest of the UTF-8-encoded URL, then `.html` (the spec-worded
`specArchiveKey`); and two calls with the same URL on the same UTC day produce
identical keys. -/
theorem generate_minio_key_format (now : UtcDate) (url url2 : String)
    (hsame : url2 = url) :
    generate_minio_key now url = specArchiveKey now url ∧
    generate_minio_key now url2 = generate_minio_key now url := by
  subst hsame
  refine ⟨?_, rfl⟩
  simp [generate_minio_key, specArchiveKey, strftimeYmd, String.append_assoc]

theorem generate_minio_key_format_witness :
    ("https://www.tayara.tn/item/abc123" : String)
        = "https://www.tayara.tn/item/abc123" ∧
    generate_minio_key ⟨2026, 2, 8⟩ "https://www.tayara.tn/item/abc123"
        = specArchiveKey ⟨2026, 2, 8⟩ "https://www.tayara.tn/item/abc123" ∧
    generate_minio_key ⟨2026, 2, 8⟩ "https://www.tayara.tn/item/abc123"
        = generate_minio_key ⟨2026, 2, 8⟩ "https://www.tayara.tn/item/abc123" :=
  ⟨rfl, (generate_minio_key_format ⟨2026, 2, 8⟩ _ _ rfl).1,
    (generate_minio_key_format ⟨2026, 2, 8⟩ _ _ rfl).2⟩

/-- **C8.** The list action serializes with exactly the summary field set (id,
title, source, source_url, price, rooms, area_m2, governorate, status,
scraped_at); every other action serializes with the full field set — every
`Listing` field, `raw_extracted` included. -/
theorem serializer_selection :
    serializer_fields (get_serializer_class .list) = listing_summary_fields ∧
    listing_summary_fields = ["id", "title", "source", "source_url", "price",
      "rooms", "area_m2", "governorate", "status", "scraped_at"] ∧
    ∀ a : ViewAction, a ≠ .list →
      serializer_fields (get_serializer_class a) = listing_fields ∧
      "raw_extracted" ∈ serializer_fields (get_serializer_class a) := by
  refine ⟨rfl, rfl, fun a ha => ?_⟩
  have h : get_serializer_class a = .full := by
    simp [get_serializer_class, ha]
  rw [h]
  exact ⟨rfl, by decide⟩

theorem serializer_selection_witness :
    ViewAction.retrieve ≠ ViewAction.list ∧
    serializer_fields (get_serializer_class .retrieve) = listing_fields ∧
    "raw_extracted" ∈ serializer_fields (get_serializer_class .retrieve) :=
  ⟨by decide, (serializer_selection.2.2 .retrieve (by decide)).1,
    (serializer_selection.2.2 .retrieve (by decide)).2⟩

/-- **C1.** In a paginated search where page 1's regex pass finds URLs and
page 2's regex pass finds zero (whatever its LLM fallback finds),
`discover_listings` returns the union of page 1's regex URLs and page 2's
LLM-fallback URLs and fetches exactly 2 pages — no later page (page 3 of the
spec's 3-page scenario included) is ever fetched, even though the LLM fallback
found URLs on page 2. -/
theorem discover_listings_stop_condition (base : String) (p1 p2 : PageData)
    (rest : List PageData)
    (h1s : p1.success = true)
    (h1r : extract_urls_regex p1.html p1.links base ≠ ∅)
    (h2s : p2.success = true)
    (h2r : extract_urls_regex p2.html p2.links base = ∅) :
    discover_listings (p1 :: p2 :: rest) base =
      (extract_urls_regex p1.html p1.links base ∪ p2.llmUrls.toFinset, 2) := by
  simp [discover_listings, discoverGo, h1s, h1r, h2s, h2r]

theorem discover_listings_stop_condition_witness :
    extract_urls_regex "" ["https://www.tayara.tn/item/a1",
      "https://www.tayara.tn/item/a2", "https://www.tayara.tn/item/a3",
      "https://www.tayara.tn/item/a4", "https://www.tayara.tn/item/a5"]
      (baseOf "https://www.tayara.tn/ads/c/Immobilier") ≠ ∅ ∧
    extract_urls_regex "no listings on this page" []
      (baseOf "https://www.tayara.tn/ads/c/Immobilier") = ∅ ∧
    discover_listings
      [⟨true, "", ["https://www.tayara.tn/item/a1", "https://www.tayara.tn/item/a2",
        "https://www.tayara.tn/item/a3", "https://www.tayara.tn/item/a4",
        "https://www.tayara.tn/item/a5"], []⟩,
       ⟨true, "no listings on this page", [],
        ["https://www.tayara.tn/item/llm1", "https://www.tayara.tn/item/llm2"]⟩,
       ⟨true, "", ["https://www.tayara.tn/item/b1"], []⟩]
      (baseOf "https://www.tayara.tn/ads/c/Immobilier") =
      (extract_urls_regex "" ["https://www.tayara.tn/item/a1",
        "https://www.tayara.tn/item/a2", "https://www.tayara.tn/item/a3",
        "https://www.tayara.tn/item/a4", "https://www.tayara.tn/item/a5"]
        (baseOf "https://www.tayara.tn/ads/c/Immobilier")
        ∪ (["https://www.tayara.tn/item/llm1",
            "https://www.tayara.tn/item/llm2"] : List String).toFinset, 2) :=
  ⟨by decide, by decide,
    discover_listings_stop_condition _ _ _ [⟨true, "", ["https://www.tayara.tn/item/b1"], []⟩]
      rfl (by decide) rfl (by decide)⟩

/-- **C9.** For a record carrying an archive key and raw HTML whose key is
absent from the archive, `bronze_saved` is incremented even when
`store_raw_html` fails (returns `False`, so the key is still absent
afterwards): the counter counts attempted archive writes, not confirmed
ones. -/
theorem bronze_saved_counts_attempts (ok : String → Bool)
    (st s' : StoreState × IngestStats) (r : CrawlRecord)
    (hk : r.raw_html_key ≠ "") (hh : r.raw_html ≠ "")
    (habs : r.raw_html_key ∉ st.1.archive)
    (hfail : ok r.raw_html_key = false)
    (hstep : save_step ok st r = some s') :
    s'.2.bronze_saved = st.2.bronze_saved + 1 ∧ s'.1.archive = st.1.archive := by
  have hB : bronze_phase ok st r
      = (st.1, { st.2 with bronze_saved := st.2.bronze_saved + 1 }) := by
    unfold bronze_phase
    rw [if_pos ⟨hk, hh⟩, if_pos habs]
    simp [hfail]
  unfold save_step at hstep
  rw [hB] at hstep
  have hframe := silver_phase_frame _ _ _ hstep
  exact ⟨hframe.2, hframe.1⟩

theorem bronze_saved_counts_attempts_witness :
    ("2026/02/08/aa.html" : String) ≠ "" ∧ ("<html>" : String) ≠ "" ∧
    "2026/02/08/aa.html" ∉ (∅ : Finset String) ∧
    (fun _ : String => false) "2026/02/08/aa.html" = false ∧
    save_step (fun _ => false) (⟨∅, []⟩, ⟨0, 0, 0⟩)
      ⟨"https://t.tn/a-b/", "t", "2026/02/08/aa.html", "<html>", "md"⟩
      = some (⟨∅, [⟨"A B", "t", "https://t.tn/a-b/", "2026/02/08/aa.html", "md", "raw"⟩]⟩,
              ⟨1, 1, 0⟩) ∧
    (1 : Nat) = 0 + 1 ∧ (∅ : Finset String) = ∅ :=
  ⟨by decide, by decide, by decide, rfl, rfl,
    bronze_saved_counts_attempts (fun _ => false) (⟨∅, []⟩, ⟨0, 0, 0⟩)
      (⟨∅, [⟨"A B", "t", "https://t.tn/a-b/", "2026/02/08/aa.html", "md", "raw"⟩]⟩, ⟨1, 1, 0⟩)
      ⟨"https://t.tn/a-b/", "t", "2026/02/08/aa.html", "<html>", "md"⟩
      (by decide) (by decide) (by decide) rfl rfl⟩

/-- **C2.** A record whose `url` is the `source_url` of a stored row creates no
row and modifies none, incrementing `db_skipped`; consequently ingesting two
records with the same `url` into a table without that URL yields exactly one
matching row, with `db_skipped = 1` recorded on the second. -/
theorem save_dedup_source_url :
    (∀ (ok : String → Bool) (st : StoreState × IngestStats) (r : CrawlRecord),
      (st.1.listings.any fun row => row.source_url == r.url) = true →
      ∃ s', save_step ok st r = some s' ∧
        s'.1.listings = st.1.listings ∧
        s'.2.db_skipped = st.2.db_skipped + 1 ∧
        s'.2.db_created = st.2.db_created) ∧
    (∀ (ok : String → Bool) (store : StoreState) (r1 r2 : CrawlRecord)
      (out : StoreState × IngestStats),
      r1.url = r2.url →
      (store.listings.countP fun row => row.source_url == r1.url) = 0 →
      save_to_bronze_and_db ok [r1, r2] store = some out →
      (out.1.listings.countP fun row => row.source_url == r1.url) = 1 ∧
      out.2.db_skipped = 1) := by
  constructor
  · intro ok st r hany
    have hframe := bronze_phase_frame ok st r
    refine ⟨((bronze_phase ok st r).1,
      { (bronze_phase ok st r).2 with
          db_skipped := (bronze_phase ok st r).2.db_skipped + 1 }), ?_, ?_, ?_, ?_⟩
    · unfold save_step silver_phase
      rw [if_pos (by rw [hframe.1]; exact hany)]
    · exact hframe.1
    · simp [hframe.2.2]
    · simp [hframe.2.1]
  · intro ok store r1 r2 out hurl hcount hrun
    unfold save_to_bronze_and_db at hrun
    simp only [List.foldlM_cons, List.foldlM_nil, Option.bind_eq_bind] at hrun
    cases hs1 : save_step ok (store, ⟨0, 0, 0⟩) r1 with
    | none => rw [hs1] at hrun; cases hrun
    | some s1 =>
      rw [hs1] at hrun
      simp only [Option.some_bind] at hrun
      cases hs2 : save_step ok s1 r2 with
      | none => rw [hs2] at hrun; cases hrun
      | some s2 =>
        rw [hs2] at hrun
        simp only [Option.some_bind, Option.pure_def, Option.some.injEq] at hrun
        subst hrun
        have hnone : ∀ row ∈ store.listings, ¬ (row.source_url == r1.url) = true :=
          List.countP_eq_zero.mp hcount
        have hanyf : (store.listings.any fun row => row.source_url == r1.url) = false := by
          rw [List.any_eq_false]
          exact hnone
        -- first record: no stored row matches, so a row is inserted
        rcases save_step_cases ok _ _ _ hs1 with ⟨htrue, _⟩ |
          ⟨_, seg, _, hlist1, _, hskip1⟩
        · have h' : (store.listings.any fun row => row.source_url == r1.url) = true :=
            htrue
          rw [hanyf] at h'
          cases h'
        · have hlist1' : s1.1.listings = store.listings ++ [ingestedRow r1 seg] :=
            hlist1
          have hskip1' : s1.2.db_skipped = 0 := hskip1
          -- second record: the inserted row matches its URL, so it is skipped
          rcases save_step_cases ok _ _ _ hs2 with ⟨_, hlist2, hskip2, _⟩ |
            ⟨hfalse2, _⟩
          · constructor
            · rw [hlist2, hlist1']
              simp [List.countP_append, List.countP_eq_zero.mpr hnone,
                ingestedRow, List.countP_cons]
            · rw [hskip2, hskip1']
          · exfalso
            rw [hlist1'] at hfalse2
            have hmatch : ((store.listings ++ [ingestedRow r1 seg]).any
                fun row => row.source_url == r2.url) = true := by
              simp [ingestedRow, ← hurl]
            rw [hmatch] at hfalse2
            cases hfalse2

theorem save_dedup_source_url_witness :
    (([⟨"T", "s", "u1", "", "", "raw"⟩] : List ListingRow).any
        fun row => row.source_url == "u1") = true ∧
    (∃ s', save_step (fun _ => true)
        ((⟨∅, [⟨"T", "s", "u1", "", "", "raw"⟩]⟩ : StoreState), ⟨0, 0, 0⟩)
        ⟨"u1", "s", "", "", ""⟩ = some s' ∧
      s'.1.listings = [⟨"T", "s", "u1", "", "", "raw"⟩] ∧
      s'.2.db_skipped = 0 + 1 ∧
      s'.2.db_created = 0) ∧
    ([] : List ListingRow).countP
        (fun row => row.source_url == "https://t.tn/x-y/") = 0 ∧
    save_to_bronze_and_db (fun _ => true)
        [⟨"https://t.tn/x-y/", "t", "", "", "m"⟩,
         ⟨"https://t.tn/x-y/", "t", "", "", "m"⟩] ⟨∅, []⟩
      = some (⟨∅, [⟨"X Y", "t", "https://t.tn/x-y/", "", "m", "raw"⟩]⟩, ⟨0, 1, 1⟩) ∧
    ([⟨"X Y", "t", "https://t.tn/x-y/", "", "m", "raw"⟩] : List ListingRow).countP
        (fun row => row.source_url == "https://t.tn/x-y/") = 1 ∧
    (1 : Nat) = 1 := by
  refine ⟨rfl, ?_, rfl, rfl, ?_, ?_⟩
  · exact save_dedup_source_url.1 (fun _ => true)
      ((⟨∅, [⟨"T", "s", "u1", "", "", "raw"⟩]⟩ : StoreState), ⟨0, 0, 0⟩)
      ⟨"u1", "s", "", "", ""⟩ rfl
  · exact (save_dedup_source_url.2 (fun _ => true) ⟨∅, []⟩
      ⟨"https://t.tn/x-y/", "t", "", "", "m"⟩ ⟨"https://t.tn/x-y/", "t", "", "", "m"⟩
      (⟨∅, [⟨"X Y", "t", "https://t.tn/x-y/", "", "m", "raw"⟩]⟩, ⟨0, 1, 1⟩)
      rfl rfl rfl).1
  · exact (save_dedup_source_url.2 (fun _ => true) ⟨∅, []⟩
      ⟨"https://t.tn/x-y/", "t", "", "", "m"⟩ ⟨"https://t.tn/x-y/", "t", "", "", "m"⟩
      (⟨∅, [⟨"X Y", "t", "https://t.tn/x-y/", "", "m", "raw"⟩]⟩, ⟨0, 1, 1⟩)
      rfl rfl rfl).2

/-- Every row present after a run was present before it or is the row built
from one of the ingested records. -/
theorem save_run_rows (ok : String → Bool) (records : List CrawlRecord) :
    ∀ (init out : StoreState × IngestStats),
      List.foldlM (save_step ok) init records = some out →
      ∀ row ∈ out.1.listings, row ∈ init.1.listings ∨
        ∃ r ∈ records, ∃ seg, row = ingestedRow r seg := by
  induction records with
  | nil =>
    intro init out h row hrow
    simp only [List.foldlM_nil, Option.pure_def, Option.some.injEq] at h
    subst h
    exact Or.inl hrow
  | cons r rs ih =>
    intro init out h row hrow
    simp only [List.foldlM_cons, Option.bind_eq_bind] at h
    cases hs : save_step ok init r with
    | none => rw [hs] at h; cases h
    | some s1 =>
      rw [hs] at h
      simp only [Option.some_bind] at h
      rcases ih s1 out h row hrow with hin | ⟨r', hr', seg, hseg⟩
      · rcases save_step_cases ok _ _ _ hs with ⟨_, hlist, _⟩ |
          ⟨_, seg, _, hlist, _⟩
        · rw [hlist] at hin
          exact Or.inl hin
        · rw [hlist] at hin
          rcases List.mem_append.mp hin with h1 | h2
          · exact Or.inl h1
          · right
            refine ⟨r, List.mem_cons_self r rs, seg, ?_⟩
            simpa using h2
      · exact Or.inr ⟨r', List.mem_cons_of_mem _ hr', seg, hseg⟩

/-- **C6.** Every `Listing` row the ingestion run creates has status the
literal `"raw"` — not a member of the model's declared status enumeration
(`bronze`/`silver`/`gold`) — and description equal to the record's markdown
truncated to 5000 characters. -/
theorem ingested_rows_status_raw (ok : String → Bool) (records : List CrawlRecord)
    (store : StoreState) (out : StoreState × IngestStats)
    (hrun : save_to_bronze_and_db ok records store = some out) :
    "raw" ∉ listing_STATUS_CHOICES.map Prod.fst ∧
    ∀ row ∈ out.1.listings, row ∈ store.listings ∨
      (row.status = "raw" ∧
        ∃ r ∈ records, row.description = pyTruncate r.markdown 5000) := by
  refine ⟨by decide, fun row hrow => ?_⟩
  rcases save_run_rows ok records (store, ⟨0, 0, 0⟩) out hrun row hrow with
    hin | ⟨r, hr, seg, rfl⟩
  · exact Or.inl hin
  · exact Or.inr ⟨rfl, r, hr, rfl⟩

theorem ingested_rows_status_raw_witness :
    save_to_bronze_and_db (fun _ => true)
        [⟨"https://t.tn/x-y/", "t", "", "", "md"⟩] ⟨∅, []⟩
      = some (⟨∅, [⟨"X Y", "t", "https://t.tn/x-y/", "", "md", "raw"⟩]⟩, ⟨0, 1, 0⟩) ∧
    "raw" ∉ listing_STATUS_CHOICES.map Prod.fst ∧
    ((⟨"X Y", "t", "https://t.tn/x-y/", "", "md", "raw"⟩ : ListingRow)
        ∈ ([] : List ListingRow) ∨
      ((⟨"X Y", "t", "https://t.tn/x-y/", "", "md", "raw"⟩ : ListingRow).status = "raw" ∧
        ∃ r ∈ [(⟨"https://t.tn/x-y/", "t", "", "", "md"⟩ : CrawlRecord)],
          (⟨"X Y", "t", "https://t.tn/x-y/", "", "md", "raw"⟩ : ListingRow).description
            = pyTruncate r.markdown 5000)) := by
  refine ⟨rfl, ?_, ?_⟩
  · exact (ingested_rows_status_raw (fun _ => true)
      [⟨"https://t.tn/x-y/", "t", "", "", "md"⟩] ⟨∅, []⟩
      (⟨∅, [⟨"X Y", "t", "https://t.tn/x-y/", "", "md", "raw"⟩]⟩, ⟨0, 1, 0⟩) rfl).1
  · exact (ingested_rows_status_raw (fun _ => true)
      [⟨"https://t.tn/x-y/", "t", "", "", "md"⟩] ⟨∅, []⟩
      (⟨∅, [⟨"X Y", "t", "https://t.tn/x-y/", "", "md", "raw"⟩]⟩, ⟨0, 1, 0⟩) rfl).2
      ⟨"X Y", "t", "https://t.tn/x-y/", "", "md", "raw"⟩ (by simp)

/-- **C7.** For a record whose URL is not yet in the database, the created
row's title is derived from the next-to-last slash-separated segment of the
URL — hyphens replaced by spaces, title-cased, truncated to 200 characters. -/
theorem ingested_title_derivation (ok : String → Bool)
    (st : StoreState × IngestStats) (r : CrawlRecord) (seg : String)
    (hfresh : (st.1.listings.any fun row => row.source_url == r.url) = false)
    (hseg : pyIdxNeg2 (pySplit r.url "/") = some seg) :
    ∃ s', save_step ok st r = some s' ∧
      s'.1.listings = st.1.listings ++ [ingestedRow r seg] ∧
      (ingestedRow r seg).title = pyTruncate (pyTitle (pyReplace seg "-" " ")) 200 := by
  have hfr := bronze_phase_frame ok st r
  refine ⟨({ (bronze_phase ok st r).1 with
      listings := (bronze_phase ok st r).1.listings ++ [ingestedRow r seg] },
    { (bronze_phase ok st r).2 with
      db_created := (bronze_phase ok st r).2.db_created + 1 }), ?_, ?_, rfl⟩
  · unfold save_step silver_phase
    rw [if_neg (by rw [hfr.1]; simp [hfresh]), hseg]
    rfl
  · simp [hfr.1]

theorem ingested_title_derivation_witness :
    (([] : List ListingRow).any fun row =>
        row.source_url == "https://www.tayara.tn/real-estate/nice-apartment-tunis/")
      = false ∧
    pyIdxNeg2 (pySplit "https://www.tayara.tn/real-estate/nice-apartment-tunis/" "/")
      = some "nice-apartment-tunis" ∧
    (∃ s', save_step (fun _ => true) (⟨∅, []⟩, ⟨0, 0, 0⟩)
        ⟨"https://www.tayara.tn/real-estate/nice-apartment-tunis/",
          "tayara", "", "", ""⟩ = some s' ∧
      s'.1.listings = [] ++ [ingestedRow
        ⟨"https://www.tayara.tn/real-estate/nice-apartment-tunis/",
          "tayara", "", "", ""⟩ "nice-apartment-tunis"] ∧
      (ingestedRow ⟨"https://www.tayara.tn/real-estate/nice-apartment-tunis/",
          "tayara", "", "", ""⟩ "nice-apartment-tunis").title
        = pyTruncate (pyTitle (pyReplace "nice-apartment-tunis" "-" " ")) 200) ∧
    (ingestedRow ⟨"https://www.tayara.tn/real-estate/nice-apartment-tunis/",
        "tayara", "", "", ""⟩ "nice-apartment-tunis").title
      = "Nice Apartment Tunis" :=
  ⟨rfl, rfl,
    ingested_title_derivation (fun _ => true) (⟨∅, []⟩, ⟨0, 0, 0⟩)
      ⟨"https://www.tayara.tn/real-estate/nice-apartment-tunis/",
        "tayara", "", "", ""⟩ "nice-apartment-tunis" rfl rfl,
    rfl⟩

/-- `cleanUrl` succeeds exactly on URLs starting with `http` (query string
stripped) or with `/` (base prefixed). -/
theorem cleanUrl_eq_some (base m u : String) :
    cleanUrl base m = some u ↔
      (pyStartswith m "http" = true ∧ u = pyGet (pySplit m "?") 0) ∨
      (pyStartswith m "http" = false ∧ pyStartswith m "/" = true ∧
        u = base ++ m) := by
  unfold cleanUrl
  by_cases h1 : pyStartswith m "http" = true
  · rw [if_pos h1]
    constructor
    · intro h
      exact Or.inl ⟨h1, (Option.some.inj h).symm⟩
    · rintro (⟨_, rfl⟩ | ⟨hf, _, _⟩)
      · rfl
      · rw [h1] at hf
        cases hf
  · have h1f : pyStartswith m "http" = false := by simpa using h1
    rw [if_neg h1]
    by_cases h2 : pyStartswith m "/" = true
    · rw [if_pos h2]
      constructor
      · intro h
        exact Or.inr ⟨h1f, h2, (Option.some.inj h).symm⟩
      · rintro (⟨ht, _⟩ | ⟨_, _, rfl⟩)
        · rw [ht] at h1f
          cases h1f
        · rfl
    · have h2f : pyStartswith m "/" = false := by simpa using h2
      rw [if_neg h2]
      constructor
      · intro h
        cases h
      · rintro (⟨ht, _⟩ | ⟨_, ht, _⟩)
        · rw [ht] at h1f
          cases h1f
        · rw [ht] at h2f
          cases h2f

/-- **C10.** A matched URL enters the result of `_extract_urls_regex` only if
it starts with `http` (everything from the first `?` stripped) or with `/`
(base URL prefixed); a link-list match starting with neither — such as the
scheme-less `www.tayara.tn/item/x`, which the link filter does collect — is
silently dropped from the result. -/
theorem extract_urls_clean_membership (html : String) (links : List String)
    (base u : String) :
    (u ∈ extract_urls_regex html links base ↔
      ∃ m ∈ listing_urls_pre html links,
        (pyStartswith m "http" = true ∧ u = pyGet (pySplit m "?") 0) ∨
        (pyStartswith m "http" = false ∧ pyStartswith m "/" = true ∧
          u = base ++ m)) ∧
    "www.tayara.tn/item/x" ∈ listing_urls_pre "" ["www.tayara.tn/item/x"] ∧
    extract_urls_regex "" ["www.tayara.tn/item/x"] base = ∅ := by
  refine ⟨?_, by decide, ?_⟩
  · unfold extract_urls_regex
    simp only [Finset.mem_biUnion, Option.mem_toFinset, Option.mem_def,
      cleanUrl_eq_some]
  · have hpre : listing_urls_pre "" ["www.tayara.tn/item/x"]
        = {"www.tayara.tn/item/x"} := by decide
    unfold extract_urls_regex
    rw [hpre, Finset.singleton_biUnion]
    rfl

end EstateMind

